import Mathlib

/-!
Verification development for the Wavespeed-to-OpenAI adapter
(`app/wavespeed_client.py`, `app/main.py`, `app/r2_uploader.py`, `app/utils.py`).

The Python code is shallowly embedded: the mutable `WavespeedClient` object
becomes an explicit `ClientState` record threaded through the operations, the
HTTP layer becomes an oracle argument describing what the network did, and
Python exceptions become `Except`/`Option` results.
-/

/-- State of `WavespeedClient`: the cookie pool (`self.cookies`), the
round-robin cursor (`self.current_cookie_index`) and the per-token consecutive
failure counters (`self.token_failure_counts`, a dict defaulting to 0). -/
structure ClientState where
  cookies : List String
  idx : Nat
  counts : String → Nat

/-- Pointwise update of the failure-count dictionary
(`self.token_failure_counts[token] = v`). -/
def setCount (c : String → Nat) (token : String) (v : Nat) : String → Nat :=
  fun t => if t = token then v else c t

/-- Model of `_get_token_and_headers`: raises (here `none`) when the pool is empty,
otherwise normalizes the cursor modulo the pool length, returns the cookie at
the cursor and advances the cursor by one modulo the length.  The headers are
not modeled (they carry no state relevant to the specification). -/
def get_token_and_headers (s : ClientState) : Option (String × ClientState) :=
  if h : s.cookies.length = 0 then none
  else
    let i := s.idx % s.cookies.length
    some (s.cookies.get ⟨i, Nat.mod_lt _ (Nat.pos_of_ne_zero h)⟩,
      { s with idx := (i + 1) % s.cookies.length })

/-- Model of `_handle_token_error`: on an insufficient-credits report, increments the
token's failure counter; once the counter reaches 3 the token is removed from
the cookie list (`self.cookies.remove(token)`, guarded by membership, hence
`List.erase`).  Any other report leaves the state unchanged. -/
def handle_token_error (s : ClientState) (token : String)
    (is_insufficient_credits : Bool) : ClientState :=
  if is_insufficient_credits then
    let c := s.counts token + 1
    let counts' := setCount s.counts token c
    if 3 ≤ c then
      { cookies := s.cookies.erase token, idx := s.idx, counts := counts' }
    else
      { s with counts := counts' }
  else s

/-- The operations that mutate the credential pool during the process
lifetime: a checkout (`_get_token_and_headers`), a success report
(`self.token_failure_counts[token] = 0` in `create_task`), and an
insufficient-credits report (`_handle_token_error(token, True)`). -/
inductive PoolOp where
  | checkoutOp
  | reportSuccess (t : String)
  | reportInsufficient (t : String)

/-- Apply one pool operation to the client state. -/
def applyOp (s : ClientState) : PoolOp → ClientState
  | .checkoutOp =>
      match get_token_and_headers s with
      | none => s
      | some (_, s') => s'
  | .reportSuccess t => { s with counts := setCount s.counts t 0 }
  | .reportInsufficient t => handle_token_error s t true

/-- Apply a sequence of pool operations. -/
def applyOps (s : ClientState) (ops : List PoolOp) : ClientState :=
  ops.foldl applyOp s

/-- Run of `n` consecutive checkouts, collecting the returned cookies in order.
A failing checkout (empty pool) stops the run. -/
def checkoutN : Nat → ClientState → List String × ClientState
  | 0, s => ([], s)
  | n + 1, s =>
      match get_token_and_headers s with
      | none => ([], s)
      | some (t, s') =>
          let r := checkoutN n s'
          (t :: r.1, r.2)

/-- Body of a JSON response to `create_task`, as far as the code inspects it:
`message` is `err_data.get("message", "")` and `id` is `data.get("id")`. -/
structure RespBody where
  message : String
  id : Option String
deriving DecidableEq

/-- Result of parsing a response body with `response.json()`: a parsed body
or a JSON-decoding failure carrying the exception message. -/
inductive BodyParse where
  | ok (b : RespBody)
  | fail (msg : String)
deriving DecidableEq

/-- Outcome of one `requests.post` call in `create_task`: either the call
itself raised (`exc`), or it returned a status code with a body parse
outcome. -/
inductive HttpResult where
  | exc (msg : String)
  | resp (status : Nat) (body : BodyParse)
deriving DecidableEq

/-- Does `needle` occur as a leading run of `hay`? -/
def leadsWith : List Char → List Char → Bool
  | [], _ => true
  | _ :: _, [] => false
  | c :: cs, d :: ds => (c = d) && leadsWith cs ds

/-- Substring containment, modeling Python's `needle in haystack`. -/
def containsSub (needle : List Char) : List Char → Bool
  | [] => leadsWith needle []
  | d :: ds => leadsWith needle (d :: ds) || containsSub needle ds

/-- The insufficient-credits marker checked by `create_task`. -/
def insufficientMarker : String := "Insufficient credits"

/-- Outcome of one attempt of the `create_task` loop. -/
inductive StepOutcome where
  | ok (taskId : String)
  | retry (lastError : String)
deriving DecidableEq

/-- Message recorded by `requests.raise_for_status` (modeled). -/
def httpErrorMsg (status : Nat) : String :=
  toString status ++ " Error"

/-- One iteration of the `create_task` attempt loop, after the token has been
checked out, given what the HTTP layer did (`r`):
* a transport exception is caught by the broad `except` and recorded;
* an HTTP 400 whose body parses and contains the insufficient-credits marker
  reports the token error and continues;
* any other 4xx/5xx raises in `raise_for_status`, is caught, and continues;
* an HTTP-success status first resets the token's failure counter, then parses
  the body; a JSON failure or a missing/empty task id raises, is caught by the
  same broad `except`, and continues; otherwise the task id is returned. -/
def attemptStep (s : ClientState) (token : String) (r : HttpResult) :
    StepOutcome × ClientState :=
  match r with
  | .exc m => (.retry m, s)
  | .resp status body =>
      if (status == 400) &&
          (match body with
           | .ok b => containsSub insufficientMarker.toList b.message.toList
           | .fail _ => false) then
        (.retry "Insufficient credits", handle_token_error s token true)
      else if 400 ≤ status ∧ status < 600 then
        (.retry (httpErrorMsg status), s)
      else
        let s' := { s with counts := setCount s.counts token 0 }
        match body with
        | .fail pe => (.retry pe, s')
        | .ok b =>
            match b.id with
            | none => (.retry "Failed to get task ID from response", s')
            | some tid =>
                if tid = "" then (.retry "Failed to get task ID from response", s')
                else (.ok tid, s')

/-- The `create_task` retry loop.  `fuel` is the number of attempts still
allowed (`max_attempts - attempts` in the source); `attempts` counts the
attempts already made and indexes the HTTP oracle.  The loop stops as soon as
the pool is empty or the budget is exhausted, raising (here `Except.error`)
with the attempt count and last recorded error. -/
def createTaskGo (oracle : Nat → HttpResult) :
    Nat → Nat → ClientState → Option String →
    Except (Nat × Option String) String × ClientState
  | 0, attempts, s, lastError => (.error (attempts, lastError), s)
  | fuel + 1, attempts, s, lastError =>
      if s.cookies = [] then (.error (attempts, lastError), s)
      else
        match get_token_and_headers s with
        | none => (.error (attempts, lastError), s)
        | some (token, s1) =>
            match attemptStep s1 token (oracle attempts) with
            | (.ok tid, s2) => (.ok tid, s2)
            | (.retry e, s2) => createTaskGo oracle fuel (attempts + 1) s2 (some e)

/-- Model of `create_task`: runs the attempt loop with budget
`max(2 * len(self.cookies), 5)`. -/
def create_task (oracle : Nat → HttpResult) (s : ClientState) :
    Except (Nat × Option String) String × ClientState :=
  createTaskGo oracle (max (2 * s.cookies.length) 5) 0 s none

/-- The fields of the (possibly `data`-wrapped) status response that
`check_status` inspects: `data.get("status")`, `data.get("outputs", [])` and
`data.get("error")`.  The `has_nsfw_contents` field only feeds a log line and
is not modeled. -/
structure StatusData where
  status : Option String
  outputs : List String
  error : Option String
deriving DecidableEq

/-- The normalized result dictionary produced by `check_status`. -/
inductive PollStatus where
  | succeeded (output : String)
  | failed (error : String)
  | pending (raw : Option String)
  | transportError (msg : String)
deriving DecidableEq

/-- The status-normalization performed by `check_status` on a successfully
fetched and parsed body: `"succeeded"`/`"completed"` inspect `outputs`
(non-empty → first element; empty → a failure whose message is the literal
used by the code); `"failed"` maps to `data.get("error", "Unknown error")`;
anything else is passed through as the raw status. -/
def normalizeStatus (d : StatusData) : PollStatus :=
  match d.status with
  | some st =>
      if st = "succeeded" ∨ st = "completed" then
        match d.outputs with
        | o :: _ => .succeeded o
        | [] => .failed "Task succeeded but no outputs found."
      else if st = "failed" then
        .failed (d.error.getD "Unknown error")
      else .pending (some st)
  | none => .pending none

/-- Result of parsing a status response body. -/
inductive StatusParse where
  | ok (d : StatusData)
  | fail (msg : String)
deriving DecidableEq

/-- What the transport layer did during one `check_status` call: the
`requests.get` call raised, or returned a status code and a body parse
outcome. -/
inductive FetchOutcome where
  | exc (msg : String)
  | resp (status : Nat) (body : StatusParse)
deriving DecidableEq

/-- The `try`-block of `check_status`, with exceptions made explicit as
`Except.error` carrying the exception message: the checkout of a token can
raise (empty pool), `requests.get` can raise, `raise_for_status` raises on
4xx/5xx, and `response.json()` can raise; otherwise the parsed body is
normalized. -/
def checkStatusBody (s : ClientState) (f : FetchOutcome) :
    Except String PollStatus × ClientState :=
  match get_token_and_headers s with
  | none => (.error "No Wavespeed cookies configured.", s)
  | some (_, s1) =>
      match f with
      | .exc m => (.error m, s1)
      | .resp status body =>
          if 400 ≤ status ∧ status < 600 then (.error (httpErrorMsg status), s1)
          else
            match body with
            | .fail pe => (.error pe, s1)
            | .ok d => (.ok (normalizeStatus d), s1)

/-- Model of `check_status`: the `try`-block wrapped in the `except` handler that turns
any exception into the `{"status": "error", "error": str(e)}` dictionary,
i.e. `PollStatus.transportError`. -/
def check_status (s : ClientState) (f : FetchOutcome) :
    PollStatus × ClientState :=
  match checkStatusBody s f with
  | (.ok v, s1) => (v, s1)
  | (.error e, s1) => (.transportError e, s1)

/-- The failures `poll_result` can raise. -/
inductive PollError where
  | taskFailed (reason : String)
  | timeout
deriving DecidableEq

/-- The `poll_result` loop over an oracle giving the normalized result of the
`i`-th `check_status` call.  Each iteration happens 2 seconds after the
previous one (`time.sleep(2)`), so the `i`-th poll runs at elapsed time
`2 * i`; the loop runs while the elapsed time is below `timeout`.  `fuel`
bounds the recursion and is chosen large enough to never run out before the
deadline check fails. -/
def pollResultGo (oracle : Nat → PollStatus) (timeout : Nat) :
    Nat → Nat → Except PollError String
  | 0, _ => .error .timeout
  | fuel + 1, i =>
      if 2 * i < timeout then
        match oracle i with
        | .succeeded u => .ok u
        | .failed e => .error (.taskFailed e)
        | .pending _ => pollResultGo oracle timeout fuel (i + 1)
        | .transportError _ => pollResultGo oracle timeout fuel (i + 1)
      else .error .timeout

/-- Model of `poll_result` with its default 120-second timeout. -/
def poll_result (oracle : Nat → PollStatus) (timeout : Nat) :
    Except PollError String :=
  pollResultGo oracle timeout (timeout / 2 + 1) 0

/-- Is a poll result one of the non-terminal ones (retried by the loops)? -/
def nonTerminal : PollStatus → Bool
  | .pending _ => true
  | .transportError _ => true
  | _ => false

/-- One server-sent event produced by `stream_generator` in
`app/main.py`, tagged by provenance:
* `roleOpen` — the initial chunk with `delta = {role, content: ""}`;
* `heartbeat` — the keep-alive chunk (a single-space content delta);
* `content s` — a content delta (mid-stream error, or the final image markup);
* `terminal r` — the final chunk with `finish_reason = r` and empty delta;
* `done` — the `data: [DONE]` sentinel. -/
inductive Frame where
  | roleOpen
  | heartbeat
  | content (s : String)
  | terminal (reason : String)
  | done
deriving DecidableEq

/-- The polling loop of `stream_generator`.  The `i`-th iteration runs at
elapsed time `2 * i` (the loop sleeps 2 seconds per iteration); `lastKA` is
the absolute time of the last keep-alive.  Per iteration, in source order:
a `succeeded` poll breaks with the output, a `failed` poll yields an error
content chunk and breaks, elapsed time above 300 yields a timeout content
chunk and breaks, and otherwise a keep-alive chunk is yielded whenever at
least 10 seconds passed since the last one.  Returns the yielded frames and
the output URL, if any.  `fuel` bounds the recursion; 152 iterations always
reach the 300-second cap, so the zero-fuel case is unreachable from
`stream_generator`. -/
def streamGo (oracle : Nat → PollStatus) : Nat → Nat → Nat → List Frame × Option String
  | 0, _, _ => ([], none)
  | fuel + 1, i, lastKA =>
      match oracle i with
      | .succeeded u => ([], some u)
      | .failed e => ([.content ("\n[Error: " ++ e ++ "]")], none)
      | .pending _ =>
          if 300 < 2 * i then ([.content "\n[Error: Timeout]"], none)
          else if 10 ≤ 2 * i - lastKA then
            let r := streamGo oracle fuel (i + 1) (2 * i)
            (.heartbeat :: r.1, r.2)
          else streamGo oracle fuel (i + 1) lastKA
      | .transportError _ =>
          if 300 < 2 * i then ([.content "\n[Error: Timeout]"], none)
          else if 10 ≤ 2 * i - lastKA then
            let r := streamGo oracle fuel (i + 1) (2 * i)
            (.heartbeat :: r.1, r.2)
          else streamGo oracle fuel (i + 1) lastKA

/-- Model of `stream_generator`: the initial role chunk, the polling loop's frames,
then — only when an output was obtained and is non-empty (Python truthiness
of `if image_url:`) — the materialized image-markup content chunk, and
finally the terminal chunk with `finish_reason = "stop"` followed by the
`[DONE]` sentinel.  `materialize` abstracts the optional re-hosting of the
output URL (`r2_uploader` plus the `if uploaded_url:` fallback). -/
def stream_generator (materialize : String → String) (oracle : Nat → PollStatus) :
    List Frame :=
  let r := streamGo oracle 152 0 0
  Frame.roleOpen ::
    (r.1 ++
      (match r.2 with
       | some u =>
           if u = "" then []
           else [Frame.content ("![image](" ++ materialize u ++ ")")]
       | none => []) ++
      [Frame.terminal "stop", Frame.done])

/-- Outcome of the image download in `upload_image_from_url`
(`requests.get` + `raise_for_status` + reading content and MIME type). -/
inductive DlOutcome where
  | ok (contents : List Nat) (mime : String)
  | exc (msg : String)
deriving DecidableEq

/-- Outcome of the `put_object` call to storage in `upload_image`. -/
inductive PutOutcome where
  | ok
  | clientError (msg : String)
  | exc (msg : String)
deriving DecidableEq

/-- Model of `R2Uploader.upload_image`: returns `None` when the uploader is disabled;
otherwise uploads and returns the public URL, with both `ClientError` and any
other exception caught and turned into `None`.  `filename` stands for the
timestamp-dependent result of `_generate_filename`. -/
def upload_image (enabled : Bool) (put : PutOutcome)
    (publicUrl filename : String) : Option String :=
  if !enabled then none
  else
    match put with
    | .ok => some (publicUrl ++ "/" ++ filename)
    | .clientError _ => none
    | .exc _ => none

/-- Model of `R2Uploader.upload_image_from_url`: returns the original URL when the
uploader is disabled; downloads and delegates to `upload_image`, returning
the original URL only when something inside its own `try` raises.  A `None`
coming back from `upload_image` is returned as-is (no exception is raised
there). -/
def upload_image_from_url (enabled : Bool) (dl : DlOutcome) (put : PutOutcome)
    (publicUrl filename url : String) : Option String :=
  if !enabled then some url
  else
    match dl with
    | .exc _ => some url
    | .ok _ _ => upload_image enabled put publicUrl filename

/-- ASCII whitespace as matched by the `\s` class in the source's regexes. -/
def isPyWs (c : Char) : Bool :=
  c == ' ' || c == '\t' || c == '\n' || c == '\r' || c == '\x0b' || c == '\x0c'

/-- The `[\d.]` character class. -/
def isDigitDot (c : Char) : Bool := c.isDigit || c == '.'

/-- The `\w` character class (ASCII part). -/
def isWordChar (c : Char) : Bool := c.isAlphanum || c == '_'

/-- Value of a run of decimal digits. -/
def digitsToNat (s : List Char) : Nat :=
  s.foldl (fun n c => 10 * n + (c.toNat - 48)) 0

/-- Split a character list at every `'.'`. -/
def dotSplit : List Char → List (List Char)
  | [] => [[]]
  | c :: cs =>
      let r := dotSplit cs
      if c == '.' then [] :: r
      else
        match r with
        | [] => [[c]]
        | p :: ps => (c :: p) :: ps

/-- Python's `float()` on a string drawn from `[\d.]+`, as an exact rational:
no dot or one dot parses (with `"5."` and `".5"` allowed, `"."` not), more
than one dot raises `ValueError` (`none`). -/
def pyFloat (s : List Char) : Option ℚ :=
  match dotSplit s with
  | [ip] => some (mkRat (digitsToNat ip) 1)
  | [ip, fp] =>
      if ip.isEmpty && fp.isEmpty then none
      else some (mkRat (digitsToNat ip * 10 ^ fp.length + digitsToNat fp) (10 ^ fp.length))
  | _ => none

/-- Python's `int()` on a stripped string: an optional sign followed by at
least one decimal digit. -/
def pyInt : List Char → Option Int
  | [] => none
  | '+' :: ds =>
      if ds.isEmpty then none
      else if ds.all Char.isDigit then some (digitsToNat ds) else none
  | '-' :: ds =>
      if ds.isEmpty then none
      else if ds.all Char.isDigit then some (-(digitsToNat ds : Int)) else none
  | ds =>
      if ds.all Char.isDigit then some (digitsToNat ds) else none

/-- Consume the literal `lit` from the head of `cs`. -/
def dropLit : List Char → List Char → Option (List Char)
  | [], cs => some cs
  | _ :: _, [] => none
  | p :: ps, c :: cs => if c == p then dropLit ps cs else none

/-- Match the tail `(?::([\d.]+))?>` of the LoRA pattern: either a colon, a
non-empty greedy run of `[\d.]`, and a closing `>`, or — when that
alternative fails — directly a closing `>` with the optional group skipped. -/
def matchScaleClose (cs : List Char) : Option (Option (List Char) × List Char) :=
  match cs with
  | ':' :: rest =>
      match rest.takeWhile isDigitDot, rest.dropWhile isDigitDot with
      | _ :: _, '>' :: tail => some (some (rest.takeWhile isDigitDot), tail)
      | _, _ => none
  | '>' :: tail => some (none, tail)
  | _ => none

/-- Lazily grow the `([^>]+?)` capture of the LoRA pattern: after each
consumed character (which must not be `>`), first try to finish the match
with `matchScaleClose`; on failure, extend the capture. -/
def matchLoraUrl (acc : List Char) : List Char → Option (List Char × Option (List Char) × List Char)
  | [] => none
  | c :: cs =>
      if c == '>' then none
      else
        match matchScaleClose cs with
        | some (sc, rest) => some (acc ++ [c], sc, rest)
        | none => matchLoraUrl (acc ++ [c]) cs

/-- Match `<lora:([^>]+?)(?::([\d.]+))?>` at the head of `cs`, returning the
two captures and the remainder. -/
def matchLoraAt (cs : List Char) : Option (List Char × Option (List Char) × List Char) :=
  match dropLit "<lora:".toList cs with
  | none => none
  | some rest => matchLoraUrl [] rest

/-- Model of `re.sub` with the LoRA pattern: scan left to right, removing every
non-overlapping match and collecting its captures in order.  `fuel` bounds
the recursion; every step consumes at least one character, so an initial
fuel of `length + 1` never runs out. -/
def subLoraGo : Nat → List Char → List Char × List (List Char × Option (List Char))
  | 0, cs => (cs, [])
  | _ + 1, [] => ([], [])
  | fuel + 1, c :: cs =>
      match matchLoraAt (c :: cs) with
      | some (url, sc, rest) =>
          let r := subLoraGo fuel rest
          (r.1, (url, sc) :: r.2)
      | none =>
          let r := subLoraGo fuel cs
          (c :: r.1, r.2)

/-- Match `<(\w+):([^>]+)>` at the head of `cs`, returning the key and value
captures and the remainder. -/
def matchParamAt (cs : List Char) : Option (List Char × List Char × List Char) :=
  match cs with
  | '<' :: rest =>
      match rest.takeWhile isWordChar, rest.dropWhile isWordChar with
      | [], _ => none
      | key, ':' :: rest2 =>
          match rest2.takeWhile (· != '>'), rest2.dropWhile (· != '>') with
          | [], _ => none
          | v, '>' :: tail => some (key, v, tail)
          | _, _ => none
      | _, _ => none
  | _ => none

/-- Model of `re.sub` with the `<key:value>` pattern, collecting matches in order. -/
def subParamGo : Nat → List Char → List Char × List (List Char × List Char)
  | 0, cs => (cs, [])
  | _ + 1, [] => ([], [])
  | fuel + 1, c :: cs =>
      match matchParamAt (c :: cs) with
      | some (key, v, rest) =>
          let r := subParamGo fuel rest
          (r.1, (key, v) :: r.2)
      | none =>
          let r := subParamGo fuel cs
          (c :: r.1, r.2)

/-- One LoRA entry as appended by `lora_replace_callback`: the captured URL
and the scale, `float(scale_str)` when the scale capture is present and
parses, `1.0` otherwise. -/
structure Lora where
  path : String
  scale : ℚ
deriving DecidableEq

/-- The parameter dictionary built by `param_replace_callback`: integer
`width`/`height`/`seed` (invalid integers silently dropped) and a string
`output_format`. -/
structure Params where
  width : Option Int := none
  height : Option Int := none
  seed : Option Int := none
  output_format : Option String := none
deriving DecidableEq

/-- Build the LoRA entry from the pattern's captures. -/
def loraOfMatch (m : List Char × Option (List Char)) : Lora :=
  { path := String.mk m.1,
    scale :=
      match m.2 with
      | none => 1
      | some ds => (pyFloat ds).getD 1 }

/-- Python `.strip()`: drop leading and trailing whitespace. -/
def stripWs (s : List Char) : List Char :=
  ((s.dropWhile isPyWs).reverse.dropWhile isPyWs).reverse

/-- Map every key to lowercase characters (`key.lower()`). -/
def lowerStr (s : List Char) : List Char := s.map Char.toLower

/-- Model of `param_replace_callback`: lowercases the key, strips the value, stores
`height`/`width`/`seed` as integers when they parse, and `output_format` as
the raw string; every other key is dropped. -/
def applyParam (p : Params) (kv : List Char × List Char) : Params :=
  let key := lowerStr kv.1
  let v := stripWs kv.2
  if key = "height".toList then
    match pyInt v with
    | some n => { p with height := some n }
    | none => p
  else if key = "width".toList then
    match pyInt v with
    | some n => { p with width := some n }
    | none => p
  else if key = "seed".toList then
    match pyInt v with
    | some n => { p with seed := some n }
    | none => p
  else if key = "output_format".toList then
    { p with output_format := some (String.mk v) }
  else p

/-- Model of `re.sub` with the whitespace pattern: collapse every whitespace run to one space. -/
def collapseWsGo : Bool → List Char → List Char
  | _, [] => []
  | prevWs, c :: cs =>
      if isPyWs c then
        if prevWs then collapseWsGo true cs
        else ' ' :: collapseWsGo true cs
      else c :: collapseWsGo false cs

/-- Model of `extract_params_from_prompt`: remove the LoRA tags (collecting LoRA
entries), then the `<key:value>` tags (collecting parameters), collapse
whitespace and strip the result. -/
def extract_params_from_prompt (prompt : String) : String × List Lora × Params :=
  let cs := prompt.toList
  let r1 := subLoraGo (cs.length + 1) cs
  let loras := r1.2.map loraOfMatch
  let r2 := subParamGo (r1.1.length + 1) r1.1
  let params := r2.2.foldl applyParam ({} : Params)
  (String.mk (stripWs (collapseWsGo false r2.1)), loras, params)

/-- Is an HTTP outcome the insufficient-credits case handled specially by
`create_task` (status 400, parseable body, marker in the message)? -/
def isInsufficient : HttpResult → Bool
  | .resp status (.ok b) =>
      status == 400 && containsSub insufficientMarker.toList b.message.toList
  | _ => false

/-- Does an HTTP outcome pass `raise_for_status` (a response whose status is
not in the 4xx/5xx range)? -/
def isHttpSuccessStatus : HttpResult → Bool
  | .resp status _ => if 400 ≤ status ∧ status < 600 then false else true
  | .exc _ => false

/-- C9: parsing `"<lora:http://x:0.8> a cat <width:512><height:768>"` yields
the cleaned prompt `"a cat"` (tags stripped, whitespace collapsed and
trimmed), exactly one LoRA entry with path `"http://x"` and scale `0.8`
(`mkRat 4 5`), and parameters `width = 512`, `height = 768` (and nothing
else). -/
theorem prompt_round_trip :
    extract_params_from_prompt "<lora:http://x:0.8> a cat <width:512><height:768>" =
      ("a cat", [{ path := "http://x", scale := mkRat 4 5 }],
        { width := some 512, height := some 768 }) := by decide

/-- C4 (counterexample): on status `"succeeded"` with empty outputs the code
does map to a failure, but its reason string is
`"Task succeeded but no outputs found."`, not the literal `"no outputs"`
stated by the claim. -/
theorem status_normalization_cex :
    normalizeStatus ⟨some "succeeded", [], none⟩ ≠ .failed "no outputs" := by
  decide

/-- C4 (amended): the status poller normalizes exactly as claimed except for
the literal reason on empty outputs: `"succeeded"`/`"completed"` with a
non-empty outputs array map to `succeeded` of the first output;
`"succeeded"`/`"completed"` with an empty outputs array map to
`failed "Task succeeded but no outputs found."`; `"failed"` with error `x`
maps to `failed x`; any other status string is passed through as `pending`. -/
theorem status_normalization (u x raw : String) (rest outs : List String)
    (err : Option String)
    (hraw : raw ≠ "succeeded" ∧ raw ≠ "completed" ∧ raw ≠ "failed") :
    normalizeStatus ⟨some "succeeded", u :: rest, err⟩ = .succeeded u ∧
    normalizeStatus ⟨some "completed", u :: rest, err⟩ = .succeeded u ∧
    normalizeStatus ⟨some "succeeded", [], err⟩ =
      .failed "Task succeeded but no outputs found." ∧
    normalizeStatus ⟨some "completed", [], err⟩ =
      .failed "Task succeeded but no outputs found." ∧
    normalizeStatus ⟨some "failed", outs, some x⟩ = .failed x ∧
    normalizeStatus ⟨some raw, outs, err⟩ = .pending (some raw) := by
  obtain ⟨h1, h2, h3⟩ := hraw
  refine ⟨by simp [normalizeStatus], by simp [normalizeStatus],
    by simp [normalizeStatus], by simp [normalizeStatus],
    by simp [normalizeStatus, Option.getD], ?_⟩
  simp [normalizeStatus, h1, h2, h3]

/-- C4 (witness): the amended normalization at concrete inputs. -/
theorem status_normalization_witness :
    normalizeStatus ⟨some "succeeded", ["u"], none⟩ = .succeeded "u" ∧
    normalizeStatus ⟨some "queued", [], none⟩ = .pending (some "queued") := by
  have h := status_normalization "u" "x" "queued" [] [] none (by decide)
  exact ⟨h.1, h.2.2.2.2.2⟩

/-- The normalizer itself never produces a `transportError`. -/
theorem normalizeStatus_ne_transport (d : StatusData) (e : String) :
    normalizeStatus d ≠ .transportError e := by
  unfold normalizeStatus
  split
  · split
    · split <;> simp
    · split <;> simp
  · simp

/-- A successful `try`-block result in `check_status` is always a normalized
status. -/
theorem checkStatusBody_ok (s : ClientState) (f : FetchOutcome) (v : PollStatus)
    (h : (checkStatusBody s f).1 = .ok v) : ∃ d, v = normalizeStatus d := by
  unfold checkStatusBody at h
  split at h
  · simp at h
  · split at h
    · simp at h
    · split at h
      · simp at h
      · split at h
        · simp at h
        · simp at h
          exact ⟨_, h.symm⟩

/-- C5: the status poller never raises — its result is `transportError e`
exactly when the embedded `try`-block raised the exception `e`; every
transport or parse exception is captured and returned with its message
rather than propagated. -/
theorem check_status_never_raises (s : ClientState) (f : FetchOutcome) (e : String) :
    (check_status s f).1 = .transportError e ↔ (checkStatusBody s f).1 = .error e := by
  constructor
  · intro h
    rcases hb : checkStatusBody s f with ⟨res, s1⟩
    cases res with
    | ok v =>
        exfalso
        have hv : (checkStatusBody s f).1 = .ok v := by rw [hb]
        obtain ⟨d, rfl⟩ := checkStatusBody_ok s f v hv
        have hc : (check_status s f).1 = normalizeStatus d := by
          unfold check_status
          rw [hb]
        rw [hc] at h
        exact normalizeStatus_ne_transport d e h
    | error e' =>
        have hc : (check_status s f).1 = .transportError e' := by
          unfold check_status
          rw [hb]
        rw [hc] at h
        simp at h ⊢
        exact h
  · intro h
    rcases hb : checkStatusBody s f with ⟨res, s1⟩
    rw [hb] at h
    cases res with
    | ok v => simp at h
    | error e' =>
        simp at h
        unfold check_status
        rw [hb, h]

/-- C8 (counterexample): when the uploader is enabled, the download succeeds,
and the storage upload step fails with an error caught inside
`upload_image`, `upload_image_from_url` returns `None` — not the original
URL as the claim states. -/
theorem upload_from_url_null_cex :
    upload_image_from_url true (.ok [0] "image/png") (.clientError "AccessDenied")
        "https://pub.example" "images/x.png" "https://orig.example/a.png" = none ∧
    (none : Option String) ≠ some "https://orig.example/a.png" := by
  exact ⟨rfl, by decide⟩

/-- C8 (amended): `upload_image_from_url` never raises; it returns the
original URL when re-hosting is disabled or when any step of its own `try`
(in particular the download) raises; when the download succeeds it returns
whatever `upload_image` returns — the public URL on success, and `None`
(not the original URL) when the storage upload fails with a caught error.
Callers fall back to the original URL on `None` themselves. -/
theorem upload_from_url_fallback (urlOrig publicUrl filename m mime : String)
    (contents : List Nat) (dl : DlOutcome) (put : PutOutcome) :
    (upload_image_from_url false dl put publicUrl filename urlOrig = some urlOrig) ∧
    (upload_image_from_url true (.exc m) put publicUrl filename urlOrig = some urlOrig) ∧
    (upload_image_from_url true (.ok contents mime) .ok publicUrl filename urlOrig =
      some (publicUrl ++ "/" ++ filename)) ∧
    (upload_image_from_url true (.ok contents mime) (.clientError m) publicUrl
      filename urlOrig = none) ∧
    (upload_image_from_url true (.ok contents mime) (.exc m) publicUrl
      filename urlOrig = none) := by
  exact ⟨rfl, rfl, rfl, rfl, rfl⟩

/-- C10 (counterexample): a failure other than insufficient credits does not
always leave the failing credential's counter unchanged: an HTTP-success
response with an unparseable body is a failure (the attempt is retried), yet
it resets the credential's counter — here from 2 to 0. -/
theorem submission_frame_effect_cex :
    (ClientState.mk ["a"] 0 (fun t => if t = "a" then 2 else 0)).counts "a" = 2 ∧
    (attemptStep ⟨["a"], 0, fun t => if t = "a" then 2 else 0⟩ "a"
        (.resp 200 (.fail "Expecting value"))).1 = .retry "Expecting value" ∧
    (attemptStep ⟨["a"], 0, fun t => if t = "a" then 2 else 0⟩ "a"
        (.resp 200 (.fail "Expecting value"))).2.counts "a" = 0 ∧
    (0 : Nat) ≠ 2 := by
  exact ⟨rfl, rfl, rfl, by decide⟩

/-- C10 (amended): during a submission attempt, any outcome other than an
insufficient-credits 400 leaves the credential pool unchanged, and leaves
every other credential's counter unchanged; the failing credential's counter
is unchanged on a transport error or a 4xx/5xx status, but is reset to 0 on
an HTTP-success status (the reset precedes body parsing, so it also happens
when the body is unparseable or lacks the task id).  Only insufficient-credits
responses increment a counter or can trigger eviction. -/
theorem submission_frame_effect (s : ClientState) (token : String) (r : HttpResult)
    (h : isInsufficient r = false) :
    ((attemptStep s token r).2.cookies = s.cookies) ∧
    (∀ t, t ≠ token → (attemptStep s token r).2.counts t = s.counts t) ∧
    (isHttpSuccessStatus r = false →
      (attemptStep s token r).2.counts token = s.counts token) ∧
    (isHttpSuccessStatus r = true →
      (attemptStep s token r).2.counts token = 0) := by
  have hstate : (attemptStep s token r).2 =
      if isHttpSuccessStatus r = true then
        { s with counts := setCount s.counts token 0 }
      else s := by
    cases r with
    | exc m => simp [attemptStep, isHttpSuccessStatus]
    | resp status body =>
        cases body with
        | fail pe =>
            by_cases h46 : 400 ≤ status ∧ status < 600 <;>
              simp [attemptStep, isHttpSuccessStatus, h46]
        | ok b =>
            simp only [isInsufficient] at h
            have hprop : ¬(status = 400 ∧
                containsSub insufficientMarker.data b.message.data = true) := by
              rintro ⟨rfl, h2⟩
              simp only [String.toList] at h
              simp [h2] at h
            by_cases h46 : 400 ≤ status ∧ status < 600
            · simp [attemptStep, isHttpSuccessStatus, hprop, h46]
            · cases hid : b.id with
              | none => simp [attemptStep, isHttpSuccessStatus, hprop, h46, hid]
              | some tid =>
                  by_cases htid : tid = "" <;>
                    simp [attemptStep, isHttpSuccessStatus, hprop, h46, hid, htid]
  by_cases hs : isHttpSuccessStatus r = true
  · rw [hstate, if_pos hs]
    refine ⟨rfl, fun t ht => ?_, fun hf => absurd hs (by simp [hf]), fun _ => ?_⟩
    · simp [setCount, ht]
    · simp [setCount]
  · rw [hstate, if_neg hs]
    exact ⟨rfl, fun t ht => rfl, fun _ => rfl, fun htr => absurd htr hs⟩

/-- C10 (witness): the frame condition applied at a concrete transport
error. -/
theorem submission_frame_effect_witness :
    isInsufficient (.exc "connection reset") = false ∧
    (attemptStep ⟨["a", "b"], 0, fun _ => 1⟩ "a" (.exc "connection reset")).2.cookies =
      ["a", "b"] := by
  refine ⟨rfl, ?_⟩
  exact (submission_frame_effect ⟨["a", "b"], 0, fun _ => 1⟩ "a"
    (.exc "connection reset") rfl).1

/-- A checkout on a state whose cursor is already inside the pool returns the
cookie at the cursor and advances the cursor by one modulo the length. -/
theorem get_token_eq (l : List String) (c : String → Nat) (i : Nat) (hi : i < l.length) :
    get_token_and_headers ⟨l, i, c⟩ =
      some (l.get ⟨i, hi⟩, ⟨l, (i + 1) % l.length, c⟩) := by
  have hmod : i % l.length = i := Nat.mod_eq_of_lt hi
  unfold get_token_and_headers
  split
  next h =>
    simp only at h
    exact absurd h (by omega)
  next h =>
    dsimp only
    simp only [hmod]

/-- Value of `checkoutN` on a cursor inside the pool, as long as the run does not wrap
past the end of the pool: it returns the `k` cookies starting at the cursor
and leaves the cursor at `(i + k) % len`. -/
theorem checkoutN_eq (l : List String) (c : String → Nat) :
    ∀ (k i : Nat), i < l.length → i + k ≤ l.length →
      checkoutN k ⟨l, i, c⟩ = ((l.drop i).take k, ⟨l, (i + k) % l.length, c⟩) := by
  intro k
  induction k with
  | zero =>
      intro i hi _
      simp [checkoutN, Nat.mod_eq_of_lt hi]
  | succ k ih =>
      intro i hi hik
      unfold checkoutN
      rw [get_token_eq l c i hi]
      by_cases hcase : i + 1 < l.length
      · rw [Nat.mod_eq_of_lt hcase]
        dsimp only
        rw [ih (i + 1) hcase (by omega)]
        have hdrop : (l.drop i).take (k + 1) = l.get ⟨i, hi⟩ :: (l.drop (i + 1)).take k := by
          rw [List.drop_eq_getElem_cons hi, List.take_succ_cons, List.get_eq_getElem]
        rw [hdrop]
        have harith : i + 1 + k = i + (k + 1) := by omega
        rw [harith]
      · have hk : k = 0 := by omega
        have hiend : i + 1 = l.length := by omega
        subst hk
        dsimp only [checkoutN]
        have hdrop : (l.drop i).take 1 = [l.get ⟨i, hi⟩] := by
          rw [List.drop_eq_getElem_cons hi, List.take_succ_cons, List.take_zero,
            List.get_eq_getElem]
        rw [hdrop]

/-- C2: in a pool of `N` credentials with a fresh cursor and no eviction,
`N` consecutive checkouts return exactly the pool in insertion order (each
credential exactly once before any repeat), leave the pool unchanged, and
return the cursor to 0; moreover every single checkout on a non-empty pool
returns the credential at the current cursor and advances the cursor to
`(cursor + 1) % len`. -/
theorem round_robin (s : ClientState) (hidx : s.idx = 0) (hne : s.cookies ≠ []) :
    (checkoutN s.cookies.length s).1 = s.cookies ∧
    (checkoutN s.cookies.length s).2.cookies = s.cookies ∧
    (checkoutN s.cookies.length s).2.idx = 0 ∧
    ∀ (s' : ClientState) (hne' : s'.cookies ≠ []),
      get_token_and_headers s' =
        some (s'.cookies.get ⟨s'.idx % s'.cookies.length,
            Nat.mod_lt _ (List.length_pos_of_ne_nil hne')⟩,
          { s' with idx := (s'.idx % s'.cookies.length + 1) % s'.cookies.length }) := by
  obtain ⟨l, i, c⟩ := s
  simp only at hidx hne
  subst hidx
  have hlen : 0 < l.length := List.length_pos_of_ne_nil hne
  have h := checkoutN_eq l c l.length 0 hlen (by omega)
  rw [h]
  refine ⟨by simp, rfl, by simp [Nat.mod_self], ?_⟩
  intro s' hne'
  unfold get_token_and_headers
  split
  next hzero =>
    have := List.length_pos_of_ne_nil hne'
    exact absurd hzero (by omega)
  next hzero =>
    rfl

/-- C2 (witness): the round-robin property on a concrete three-credential
pool. -/
theorem round_robin_witness :
    (checkoutN 3 ⟨["a", "b", "c"], 0, fun _ => 0⟩).1 = ["a", "b", "c"] := by
  exact (round_robin ⟨["a", "b", "c"], 0, fun _ => 0⟩ rfl (by decide)).1

/-- One insufficient-credits report, unfolded: the counter is bumped, and the
token is erased from the pool exactly when the bumped counter reaches 3. -/
theorem handle_true_eq (s : ClientState) (t : String) :
    handle_token_error s t true =
      if 3 ≤ s.counts t + 1 then
        { cookies := s.cookies.erase t, idx := s.idx,
          counts := setCount s.counts t (s.counts t + 1) }
      else { s with counts := setCount s.counts t (s.counts t + 1) } := rfl

/-- An insufficient-credits report always bumps the reported token's
counter by one. -/
theorem handle_counts_self (s : ClientState) (t : String) :
    (handle_token_error s t true).counts t = s.counts t + 1 := by
  rw [handle_true_eq]
  split <;> simp [setCount]

/-- An insufficient-credits report never increases any token's multiplicity
in the pool. -/
theorem handle_count_le (s : ClientState) (t t' : String) :
    (handle_token_error s t true).cookies.count t' ≤ s.cookies.count t' := by
  rw [handle_true_eq]
  split
  · exact (List.erase_sublist t s.cookies).count_le t'
  · exact le_refl _

/-- When the bumped counter reaches 3, the report erases the token. -/
theorem handle_erase_of_ge (s : ClientState) (t : String)
    (h : 3 ≤ s.counts t + 1) :
    (handle_token_error s t true).cookies = s.cookies.erase t := by
  rw [handle_true_eq, if_pos h]

/-- When the bumped counter stays below 3, the report leaves the pool
unchanged. -/
theorem handle_cookies_of_lt (s : ClientState) (t : String)
    (h : s.counts t + 1 < 3) :
    (handle_token_error s t true).cookies = s.cookies := by
  rw [handle_true_eq, if_neg (by omega)]

/-- A successful checkout returns a member of the pool and does not change
the pool itself. -/
theorem checkout_some (s : ClientState) (tok : String) (s' : ClientState)
    (h : get_token_and_headers s = some (tok, s')) :
    s'.cookies = s.cookies ∧ tok ∈ s.cookies := by
  unfold get_token_and_headers at h
  split at h
  · exact absurd h (by simp)
  · simp only [Option.some.injEq, Prod.mk.injEq] at h
    obtain ⟨h1, h2⟩ := h
    constructor
    · rw [← h2]
    · rw [← h1]
      exact List.get_mem _ _ _

/-- No pool operation ever adds a credential to the pool. -/
theorem applyOp_not_mem (s : ClientState) (op : PoolOp) (t : String)
    (h : t ∉ s.cookies) : t ∉ (applyOp s op).cookies := by
  cases op with
  | checkoutOp =>
      unfold applyOp
      cases hc : get_token_and_headers s with
      | none => exact h
      | some p =>
          rw [(checkout_some s p.1 p.2 (by rw [hc])).1]
          exact h
  | reportSuccess t' => exact h
  | reportInsufficient t' =>
      show t ∉ (handle_token_error s t' true).cookies
      rw [handle_true_eq]
      split
      · intro hmem
        exact h (List.mem_of_mem_erase hmem)
      · exact h

/-- A credential absent from the pool stays absent under any sequence of
pool operations. -/
theorem applyOps_not_mem (ops : List PoolOp) : ∀ (s : ClientState) (t : String),
    t ∉ s.cookies → t ∉ (applyOps s ops).cookies := by
  induction ops with
  | nil => intro s t h; exact h
  | cons op ops ih =>
      intro s t h
      exact ih (applyOp s op) t (applyOp_not_mem s op t h)

/-- C1: a credential that receives three consecutive insufficient-credits
reports (no intervening success) is removed from the pool and is returned by
no later checkout, whatever operations follow; a success report resets the
credential's counter to 0, so that two insufficient-credits reports, a
success, and a third insufficient-credits report leave the credential in the
pool with counter 1. -/
theorem credential_eviction (s : ClientState) (t : String)
    (hcount : s.cookies.count t ≤ 1) :
    (t ∉ (applyOps s [.reportInsufficient t, .reportInsufficient t,
        .reportInsufficient t]).cookies) ∧
    (∀ (ops : List PoolOp) (tok : String) (s'' : ClientState),
      get_token_and_headers (applyOps (applyOps s [.reportInsufficient t,
          .reportInsufficient t, .reportInsufficient t]) ops) = some (tok, s'') →
      tok ≠ t) ∧
    (∀ (s0 : ClientState), (applyOp s0 (.reportSuccess t)).counts t = 0) ∧
    (t ∈ s.cookies → s.counts t = 0 →
      t ∈ (applyOps s [.reportInsufficient t, .reportInsufficient t,
          .reportSuccess t, .reportInsufficient t]).cookies ∧
      (applyOps s [.reportInsufficient t, .reportInsufficient t,
          .reportSuccess t, .reportInsufficient t]).counts t = 1) := by
  have hnotmem : t ∉ (applyOps s [.reportInsufficient t, .reportInsufficient t,
      .reportInsufficient t]).cookies := by
    show t ∉ (handle_token_error (handle_token_error (handle_token_error s t true)
      t true) t true).cookies
    have hc1 := handle_counts_self s t
    have hc2 := handle_counts_self (handle_token_error s t true) t
    rw [hc1] at hc2
    have hk3 : (handle_token_error (handle_token_error (handle_token_error s t true)
        t true) t true).cookies =
        (handle_token_error (handle_token_error s t true) t true).cookies.erase t :=
      handle_erase_of_ge _ t (by omega)
    have hle : (handle_token_error (handle_token_error s t true) t true).cookies.count t ≤ 1 :=
      le_trans (handle_count_le _ t t) (le_trans (handle_count_le s t t) hcount)
    have hzero : (handle_token_error (handle_token_error (handle_token_error s t true)
        t true) t true).cookies.count t = 0 := by
      rw [hk3, List.count_erase_self]
      omega
    exact List.count_eq_zero.mp hzero
  refine ⟨hnotmem, ?_, ?_, ?_⟩
  · intro ops tok s'' hchk
    have habs := applyOps_not_mem ops _ t hnotmem
    have hmem := (checkout_some _ tok s'' hchk).2
    intro heq
    rw [heq] at hmem
    exact habs hmem
  · intro s0
    simp [applyOp, setCount]
  · intro hmem hzero
    show t ∈ (handle_token_error { handle_token_error (handle_token_error s t true) t
          true with
        counts := setCount (handle_token_error (handle_token_error s t true) t
          true).counts t 0 } t true).cookies ∧
      (handle_token_error { handle_token_error (handle_token_error s t true) t
          true with
        counts := setCount (handle_token_error (handle_token_error s t true) t
          true).counts t 0 } t true).counts t = 1
    have hc1 := handle_counts_self s t
    rw [hzero] at hc1
    have hc2 := handle_counts_self (handle_token_error s t true) t
    rw [hc1] at hc2
    have hk1 : (handle_token_error s t true).cookies = s.cookies :=
      handle_cookies_of_lt s t (by omega)
    have hk2 : (handle_token_error (handle_token_error s t true) t true).cookies =
        s.cookies := by
      rw [handle_cookies_of_lt _ t (by omega), hk1]
    have hcS : (setCount (handle_token_error (handle_token_error s t true) t
        true).counts t 0) t = 0 := by
      simp [setCount]
    constructor
    · rw [handle_cookies_of_lt _ t (by simp only [hcS]; omega)]
      show t ∈ (handle_token_error (handle_token_error s t true) t true).cookies
      rw [hk2]
      exact hmem
    · rw [handle_counts_self]
      simp only [hcS]

/-- C1 (witness): the eviction property applied to a concrete two-credential
pool. -/
theorem credential_eviction_witness :
    (["a", "b"].count "a" ≤ 1) ∧
    "a" ∉ (applyOps ⟨["a", "b"], 0, fun _ => 0⟩ [.reportInsufficient "a",
      .reportInsufficient "a", .reportInsufficient "a"]).cookies := by
  refine ⟨by decide, ?_⟩
  exact (credential_eviction ⟨["a", "b"], 0, fun _ => 0⟩ "a" (by decide)).1

/-- C3 (counterexample): an HTTP-success response whose body lacks the task
identifier does not make `create_task` fail — the raised exception is caught
by the broad `except` of the attempt loop, which retries with the next
credential: here the first attempt gets a 200 without an id, and the call
still returns the task id obtained with the second credential. -/
theorem create_task_malformed_cex :
    (attemptStep ⟨["a", "b"], 1, fun _ => 0⟩ "a"
        (.resp 200 (.ok ⟨"", none⟩))).1 =
      .retry "Failed to get task ID from response" ∧
    (create_task
        (fun n => if n = 0 then .resp 200 (.ok ⟨"", none⟩)
                  else .resp 200 (.ok ⟨"", some "task-1"⟩))
        ⟨["a", "b"], 0, fun _ => 0⟩).1 = .ok "task-1" := by
  exact ⟨rfl, rfl⟩

/-- C3 (amended): on an HTTP-success response whose body lacks (or has an
empty) task identifier, the attempt resets the credential's failure counter
(the reset precedes the parse), records the error and the loop retries with
the next checked-out credential — submission only fails after the attempt
budget is exhausted; when the identifier is present and non-empty, the
counter is reset and the identifier is returned. -/
theorem create_task_malformed (s : ClientState) (token : String) (status : Nat)
    (hst : status < 400) (b : RespBody) :
    (b.id = none →
      attemptStep s token (.resp status (.ok b)) =
        (.retry "Failed to get task ID from response",
          { s with counts := setCount s.counts token 0 })) ∧
    (∀ tid, b.id = some tid → tid ≠ "" →
      attemptStep s token (.resp status (.ok b)) =
        (.ok tid, { s with counts := setCount s.counts token 0 })) ∧
    (∀ (oracle : Nat → HttpResult) (fuel attempts : Nat) (lastError : Option String)
        (tok : String) (s1 s2 : ClientState) (e : String),
      s.cookies ≠ [] →
      get_token_and_headers s = some (tok, s1) →
      attemptStep s1 tok (oracle attempts) = (.retry e, s2) →
      createTaskGo oracle (fuel + 1) attempts s lastError =
        createTaskGo oracle fuel (attempts + 1) s2 (some e)) := by
  have h400 : (status == 400) = false := by
    simp only [beq_eq_false_iff_ne]
    omega
  have h46 : ¬(400 ≤ status ∧ status < 600) := by omega
  refine ⟨?_, ?_, ?_⟩
  · intro hid
    simp [attemptStep, h400, h46, hid]
  · intro tid hid htid
    simp [attemptStep, h400, h46, hid, htid]
  · intro oracle fuel attempts lastError tok s1 s2 e hne hchk hstep
    simp only [createTaskGo]
    rw [if_neg hne, hchk]
    dsimp only
    rw [hstep]

/-- C3 (witness): the amended behavior at a concrete 200 response without a
task id. -/
theorem create_task_malformed_witness :
    (200 : Nat) < 400 ∧
    attemptStep ⟨["a"], 0, fun _ => 3⟩ "a" (.resp 200 (.ok ⟨"", none⟩)) =
      (.retry "Failed to get task ID from response",
        ⟨["a"], 0, setCount (fun _ => 3) "a" 0⟩) := by
  refine ⟨by omega, ?_⟩
  exact (create_task_malformed ⟨["a"], 0, fun _ => 3⟩ "a" 200 (by omega) ⟨"", none⟩).1 rfl

/-- A non-terminal poll before the deadline consumes one loop iteration. -/
theorem pollResultGo_skip (oracle : Nat → PollStatus) (timeout fuel i : Nat)
    (hnt : nonTerminal (oracle i) = true) (hlt : 2 * i < timeout) :
    pollResultGo oracle timeout (fuel + 1) i = pollResultGo oracle timeout fuel (i + 1) := by
  show (if 2 * i < timeout then
      match oracle i with
      | .succeeded u => Except.ok u
      | .failed e => Except.error (.taskFailed e)
      | .pending _ => pollResultGo oracle timeout fuel (i + 1)
      | .transportError _ => pollResultGo oracle timeout fuel (i + 1)
    else .error .timeout) = pollResultGo oracle timeout fuel (i + 1)
  rw [if_pos hlt]
  cases h : oracle i with
  | succeeded u => rw [h] at hnt; simp [nonTerminal] at hnt
  | failed e => rw [h] at hnt; simp [nonTerminal] at hnt
  | pending r => rfl
  | transportError m => rfl

/-- Skipping a run of non-terminal polls: `k` non-terminal polls starting at
iteration `i`, all before the deadline, move the loop to iteration `i + k`. -/
theorem pollResultGo_skipTo (oracle : Nat → PollStatus) (timeout : Nat) :
    ∀ (k f i : Nat), (∀ j, j < k → nonTerminal (oracle (i + j)) = true) →
      2 * (i + k) ≤ timeout →
      pollResultGo oracle timeout (k + f) i = pollResultGo oracle timeout f (i + k) := by
  intro k
  induction k with
  | zero =>
      intro f i _ _
      rw [Nat.zero_add]
      rfl
  | succ k ih =>
      intro f i hnt hle
      have h0 : nonTerminal (oracle i) = true := by
        have := hnt 0 (by omega)
        simpa using this
      have hfuel : k + 1 + f = (k + f) + 1 := by omega
      rw [hfuel, pollResultGo_skip oracle timeout (k + f) i h0 (by omega)]
      have hrest := ih f (i + 1)
        (fun j hj => by
          have := hnt (j + 1) (by omega)
          have harith : i + (j + 1) = i + 1 + j := by omega
          rw [harith] at this
          exact this)
        (by omega)
      rw [hrest]
      have harith : i + 1 + k = i + (k + 1) := by omega
      rw [harith]

/-- C6: the synchronous completion flow returns the output at the first
`succeeded` poll and fails with the backend reason at the first `failed`
poll; `pending` and `transportError` polls are retried after a fixed
2-second sleep without resetting the deadline (the `i`-th poll runs at
elapsed time `2 * i`); if every poll before the 120-second deadline is
non-terminal, it fails with the polling timeout. -/
theorem poll_result_spec (oracle : Nat → PollStatus) (i : Nat)
    (hpre : ∀ j, j < i → nonTerminal (oracle j) = true) :
    (∀ u, 2 * i < 120 → oracle i = .succeeded u → poll_result oracle 120 = .ok u) ∧
    (∀ e, 2 * i < 120 → oracle i = .failed e →
      poll_result oracle 120 = .error (.taskFailed e)) ∧
    ((∀ j, 2 * j < 120 → nonTerminal (oracle j) = true) →
      poll_result oracle 120 = .error .timeout) := by
  refine ⟨?_, ?_, ?_⟩
  · intro u hlt hor
    have hfuel : (61 : Nat) = i + (61 - i) := by omega
    have hstart : poll_result oracle 120 = pollResultGo oracle 120 61 0 := rfl
    rw [hstart, hfuel, pollResultGo_skipTo oracle 120 i (61 - i) 0
      (fun j hj => by simpa using hpre j hj) (by omega)]
    obtain ⟨m, hm⟩ : ∃ m, 61 - i = m + 1 := ⟨60 - i, by omega⟩
    rw [hm]
    unfold pollResultGo
    rw [if_pos (by simpa using hlt)]
    simp [hor]
  · intro e hlt hor
    have hfuel : (61 : Nat) = i + (61 - i) := by omega
    have hstart : poll_result oracle 120 = pollResultGo oracle 120 61 0 := rfl
    rw [hstart, hfuel, pollResultGo_skipTo oracle 120 i (61 - i) 0
      (fun j hj => by simpa using hpre j hj) (by omega)]
    obtain ⟨m, hm⟩ : ∃ m, 61 - i = m + 1 := ⟨60 - i, by omega⟩
    rw [hm]
    unfold pollResultGo
    rw [if_pos (by simpa using hlt)]
    simp [hor]
  · intro hall
    have hstart : poll_result oracle 120 = pollResultGo oracle 120 61 0 := rfl
    have h61 : (61 : Nat) = 60 + 1 := by omega
    rw [hstart, h61, pollResultGo_skipTo oracle 120 60 1 0
      (fun j hj => by
        have := hall j (by omega)
        simpa using this)
      (by omega)]
    unfold pollResultGo
    rw [if_neg (by omega)]

/-- C6 (witness): success on the fourth poll after three non-terminal
polls. -/
theorem poll_result_spec_witness :
    (∀ j, j < 3 → nonTerminal ((fun n => if n = 3 then PollStatus.succeeded "u"
      else PollStatus.pending (some "created")) j) = true) ∧
    poll_result (fun n => if n = 3 then PollStatus.succeeded "u"
      else PollStatus.pending (some "created")) 120 = .ok "u" := by
  refine ⟨by decide, ?_⟩
  exact (poll_result_spec
    (fun n => if n = 3 then PollStatus.succeeded "u"
      else PollStatus.pending (some "created")) 3 (by decide)).1 "u" (by omega) rfl

/-- One unfolding step of the streaming poll loop. -/
theorem streamGo_succ (oracle : Nat → PollStatus) (fuel i lastKA : Nat) :
    streamGo oracle (fuel + 1) i lastKA =
      match oracle i with
      | .succeeded u => ([], some u)
      | .failed e => ([.content ("\n[Error: " ++ e ++ "]")], none)
      | .pending _ =>
          if 300 < 2 * i then ([.content "\n[Error: Timeout]"], none)
          else if 10 ≤ 2 * i - lastKA then
            let r := streamGo oracle fuel (i + 1) (2 * i)
            (.heartbeat :: r.1, r.2)
          else streamGo oracle fuel (i + 1) lastKA
      | .transportError _ =>
          if 300 < 2 * i then ([.content "\n[Error: Timeout]"], none)
          else if 10 ≤ 2 * i - lastKA then
            let r := streamGo oracle fuel (i + 1) (2 * i)
            (.heartbeat :: r.1, r.2)
          else streamGo oracle fuel (i + 1) lastKA := rfl

/-- Every frame yielded inside the streaming poll loop is either a keep-alive
or a content chunk. -/
theorem streamGo_frames (oracle : Nat → PollStatus) :
    ∀ (fuel i lastKA : Nat) (x : Frame), x ∈ (streamGo oracle fuel i lastKA).1 →
      x = Frame.heartbeat ∨ ∃ s, x = Frame.content s := by
  intro fuel
  induction fuel with
  | zero =>
      intro i lastKA x hx
      simp [streamGo] at hx
  | succ n ih =>
      intro i lastKA x hx
      rw [streamGo_succ] at hx
      cases h : oracle i with
      | succeeded u =>
          rw [h] at hx
          simp at hx
      | failed e =>
          rw [h] at hx
          simp at hx
          exact Or.inr ⟨_, hx⟩
      | pending r =>
          rw [h] at hx
          dsimp only at hx
          split at hx
          · simp at hx
            exact Or.inr ⟨_, hx⟩
          · split at hx
            · dsimp only at hx
              rcases List.mem_cons.mp hx with h1 | h1
              · exact Or.inl h1
              · exact ih _ _ x h1
            · exact ih _ _ x hx
      | transportError m =>
          rw [h] at hx
          dsimp only at hx
          split at hx
          · simp at hx
            exact Or.inr ⟨_, hx⟩
          · split at hx
            · dsimp only at hx
              rcases List.mem_cons.mp hx with h1 | h1
              · exact Or.inl h1
              · exact ih _ _ x h1
            · exact ih _ _ x hx

/-- C7: for every poll sequence, the stream is exactly one `role_open` frame,
then a run of keep-alive/content frames, then exactly one `terminal "stop"`
frame immediately followed by exactly one `done` frame; `done` is always
last. -/
theorem streaming_frame_order (materialize : String → String)
    (oracle : Nat → PollStatus) :
    ∃ middle : List Frame,
      stream_generator materialize oracle =
        Frame.roleOpen :: (middle ++ [Frame.terminal "stop", Frame.done]) ∧
      (∀ x ∈ middle, x = Frame.heartbeat ∨ ∃ s, x = Frame.content s) ∧
      (stream_generator materialize oracle).count (Frame.terminal "stop") = 1 ∧
      (stream_generator materialize oracle).count Frame.done = 1 ∧
      (stream_generator materialize oracle).getLast? = some Frame.done := by
  obtain ⟨B, hBeq, hBmem⟩ : ∃ B : List Frame,
      (match (streamGo oracle 152 0 0).2 with
       | some u =>
           if u = "" then []
           else [Frame.content ("![image](" ++ materialize u ++ ")")]
       | none => []) = B ∧
      ∀ x ∈ B, x = Frame.heartbeat ∨ ∃ s, x = Frame.content s := by
    cases h2 : (streamGo oracle 152 0 0).2 with
    | none => exact ⟨[], rfl, by simp⟩
    | some u =>
        by_cases hu : u = ""
        · refine ⟨[], ?_, by simp⟩
          simp [hu]
        · refine ⟨[Frame.content ("![image](" ++ materialize u ++ ")")], ?_, ?_⟩
          · simp [hu]
          · intro x hx
            simp at hx
            exact Or.inr ⟨_, hx⟩
  have hshape : stream_generator materialize oracle =
      Frame.roleOpen :: (((streamGo oracle 152 0 0).1 ++ B) ++
        [Frame.terminal "stop", Frame.done]) := by
    rw [← hBeq]
    rfl
  have hmid : ∀ x ∈ (streamGo oracle 152 0 0).1 ++ B,
      x = Frame.heartbeat ∨ ∃ s, x = Frame.content s := by
    intro x hx
    rcases List.mem_append.mp hx with h1 | h1
    · exact streamGo_frames oracle 152 0 0 x h1
    · exact hBmem x h1
  have hterm : Frame.terminal "stop" ∉ (streamGo oracle 152 0 0).1 ++ B := by
    intro hmem
    rcases hmid _ hmem with h | ⟨s, h⟩ <;> simp at h
  have hdone : Frame.done ∉ (streamGo oracle 152 0 0).1 ++ B := by
    intro hmem
    rcases hmid _ hmem with h | ⟨s, h⟩ <;> simp at h
  refine ⟨(streamGo oracle 152 0 0).1 ++ B, hshape, hmid, ?_, ?_, ?_⟩
  · rw [hshape, List.count_cons, List.count_append, List.count_eq_zero.mpr hterm]
    simp
  · rw [hshape, List.count_cons, List.count_append, List.count_eq_zero.mpr hdone]
    simp
  · rw [hshape]
    rw [show Frame.roleOpen :: (((streamGo oracle 152 0 0).1 ++ B) ++
        [Frame.terminal "stop", Frame.done]) =
        (Frame.roleOpen :: (((streamGo oracle 152 0 0).1 ++ B) ++
          [Frame.terminal "stop"])) ++ [Frame.done] from by simp]
    rw [List.getLast?_concat]
